import Mathlib

/-!
Verification of the xpost credential vault (src/xpost/encrypt.py).

The repository's core is a password-protected credential store:
PBKDF2-based key derivation (`CredentialManager.generate_key`),
Fernet authenticated encryption (`encrypt_data` / `decrypt_data`),
and per-user file persistence (`save_credentials` / `load_credentials`,
`force_delete`, and the `CredentialCLI` wrapper).

The external cryptographic library (PBKDF2HMAC, Fernet) is modelled
symbolically, faithfully to its documented contract:
- the derived key is an injective function of the KDF parameters and the
  password (PBKDF2-SHA256 is collision-free for practical purposes);
- a Fernet token consists of an authenticated payload (key material,
  the fresh random nonce/IV drawn inside `Fernet.encrypt`, and the
  plaintext) followed by a tag that authenticates the whole payload;
  decryption verifies the tag and the key and raises InvalidToken
  otherwise.  In the model the tag is a verbatim copy of the payload,
  which gives the ideal-MAC behaviour: any modification of the token is
  detected.

The filesystem is modelled as explicit state: a flat map from paths to
byte contents inside the `~/.tweet` directory, a flag for the existence
of that directory, and an environment flag `ioFault` under which the
raw OS operations (directory creation, file write, file read) raise
OSError, modelling environmental I/O failures such as permission errors.
Python exceptions are modelled with `Except`; printed messages are
collected in a list.  `time.sleep` calls and the spinner characters are
not modelled (they have no effect on state or outcome); `input` calls
are modelled as explicit parameters.
-/

namespace Xpost

/-- Secret record: the seven credential fields collected by
`CredentialManager.prompt_for_credentials` and serialized with
`json.dumps`. -/
structure Credentials where
  client_id : String
  client_secret : String
  api_key : String
  api_key_secret : String
  bearer_token : String
  access_token : String
  access_token_secret : String
deriving DecidableEq, Repr

/-- Length-prefixed byte encoding of one string field (a code point per
entry). -/
def encodeStr (s : String) : List Nat :=
  s.data.length :: s.data.map Char.toNat

/-- Inverse of `encodeStr` on a stream: decode one length-prefixed field,
return it with the remaining stream. -/
def decodeStr : List Nat → Option (String × List Nat)
  | [] => none
  | n :: rest =>
    if n ≤ rest.length then
      some (String.mk ((rest.take n).map Char.ofNat), rest.drop n)
    else none

/-- Modelled from the source's `json.dumps` of the seven-field dict in
`CredentialCLI.store`: an injective byte encoding of the secret record. -/
def serializeCreds (c : Credentials) : List Nat :=
  encodeStr c.client_id ++ encodeStr c.client_secret ++ encodeStr c.api_key ++
    encodeStr c.api_key_secret ++ encodeStr c.bearer_token ++
    encodeStr c.access_token ++ encodeStr c.access_token_secret

/-- Modelled from the source's `json.loads` in
`CredentialManager.load_credentials`: inverse of `serializeCreds`, `none`
models a raised JSONDecodeError. -/
def deserializeCreds (l : List Nat) : Option Credentials := do
  let (a, l) ← decodeStr l
  let (b, l) ← decodeStr l
  let (c, l) ← decodeStr l
  let (d, l) ← decodeStr l
  let (e, l) ← decodeStr l
  let (f, l) ← decodeStr l
  let (g, l) ← decodeStr l
  if l = [] then pure ⟨a, b, c, d, e, f, g⟩ else none

/-- Symbolic model of the output of `base64.urlsafe_b64encode(kdf.derive(password_bytes))`
in `CredentialManager.generate_key`: the derived key is determined exactly
by the KDF parameters (salt, iteration count, output length) and the
password bytes. -/
structure DerivedKey where
  salt : List Nat
  iterations : Nat
  length : Nat
  password : List Nat
deriving DecidableEq, Repr

/-- Embedding of `CredentialManager.generate_key`: PBKDF2HMAC-SHA256 with
the fixed 16-byte salt `b"\x10" * 16`, 100000 iterations and 32-byte
output, applied to the UTF-8 encoded password. -/
def generate_key (password : String) : DerivedKey :=
  { salt := List.replicate 16 16
    iterations := 100000
    length := 32
    password := password.data.map Char.toNat }

/-- Byte encoding of the key material authenticated inside a Fernet
token in the symbolic cipher model. -/
def keyBytes (k : DerivedKey) : List Nat :=
  (k.salt.length :: k.salt) ++ [k.iterations, k.length] ++
    (k.password.length :: k.password)

/-- Symbolic model of `Fernet(key).encrypt(data)`: the token is the
authenticated payload (key material, the fresh random IV drawn by the
library, the plaintext) followed by the authentication tag; in the
symbolic model the ideal MAC tag is a verbatim copy of the payload. -/
def fernetEncrypt (k : DerivedKey) (nonce : Nat) (data : List Nat) : List Nat :=
  (keyBytes k ++ nonce :: data) ++ (keyBytes k ++ nonce :: data)

/-- Symbolic model of `Fernet(key).decrypt(token)`: verify the tag over
the payload and check that the token was produced under the same key;
`none` models a raised `cryptography.fernet.InvalidToken`. -/
def fernetDecrypt (k : DerivedKey) (token : List Nat) : Option (List Nat) :=
  if token.length % 2 = 0 ∧
      token.drop (token.length / 2) = token.take (token.length / 2) ∧
      (keyBytes k).isPrefixOf (token.take (token.length / 2)) = true then
    match (token.take (token.length / 2)).drop (keyBytes k).length with
    | [] => none
    | _ :: data => some data
  else none

/-- Embedding of `CredentialManager.encrypt_data`: derive the key from
the password and encrypt; `nonce` models the fresh randomness the Fernet
library draws internally on each call. -/
def encrypt_data (data : List Nat) (password : String) (nonce : Nat) : List Nat :=
  fernetEncrypt (generate_key password) nonce data

/-- Embedding of `CredentialManager.decrypt_data`: derive the key from
the password and decrypt; `none` models a raised InvalidToken. -/
def decrypt_data (encrypted_data : List Nat) (password : String) : Option (List Nat) :=
  fernetDecrypt (generate_key password) encrypted_data

/-- Python exceptions that can cross function boundaries in the embedded
code. `osError` models environmental I/O failures (permissions, disk
full); `valueError` models `json.JSONDecodeError`. -/
inductive PyExn where
  | fileNotFound
  | invalidToken
  | osError
  | valueError
deriving DecidableEq, Repr

/-- Filesystem state visible to the vault: the `~/.tweet` directory flag,
the files under it (path to raw bytes), and an environment flag under
which raw OS calls (makedirs, write, read) raise OSError. -/
structure FS where
  dirExists : Bool
  files : List (String × List Nat)
  ioFault : Bool
deriving DecidableEq, Repr

/-- Look a path up in the file map. -/
def lookupFile : List (String × List Nat) → String → Option (List Nat)
  | [], _ => none
  | (p, d) :: rest, q => if p = q then some d else lookupFile rest q

/-- Write a path into the file map, replacing any previous content: a
path maps to at most one file. -/
def putFile (files : List (String × List Nat)) (p : String) (d : List Nat) :
    List (String × List Nat) :=
  (p, d) :: files.filter (fun e => e.1 != p)

/-- Embedding of `os.makedirs(..., exist_ok=True)` on `~/.tweet`. -/
def osMakedirs (fs : FS) : Except PyExn FS :=
  if fs.ioFault then .error .osError
  else .ok { fs with dirExists := true }

/-- Embedding of `open(path, "wb"); file.write(data)`. -/
def fsWrite (fs : FS) (path : String) (data : List Nat) : Except PyExn FS :=
  if fs.ioFault then .error .osError
  else if fs.dirExists then
    .ok { fs with files := putFile fs.files path data }
  else .error .fileNotFound

/-- Embedding of `open(path, "rb"); file.read()`. -/
def fsRead (fs : FS) (path : String) : Except PyExn (List Nat) :=
  if fs.ioFault then .error .osError
  else match lookupFile fs.files path with
    | some d => .ok d
    | none => .error .fileNotFound

/-- Embedding of Python's `str.lower()` (character-wise lowering), as
used on the confirmation answers in `CredentialCLI.reset`. -/
def pyLower (s : String) : String :=
  String.mk (s.data.map Char.toLower)

/-- Replace the content of one file: the state change performed by a
write to an existing path. -/
def overwriteFile (fs : FS) (path : String) (d : List Nat) : FS :=
  { fs with files := putFile fs.files path d }

/-- Embedding of `os.path.expanduser(f"~/.tweet/{username}-PBKDF2HMAC")`
from `CredentialManager.__init__`. -/
def credentials_file (username : String) : String :=
  "~/.tweet/" ++ username ++ "-PBKDF2HMAC"

/-- Message printed by `save_credentials` on success (the `colored`
ANSI wrapper is applied by the caller at print time and does not change
which message is reported). -/
def storedMsg : String := "Credentials encrypted and stored successfully."

/-- Message printed by `load_credentials` when the vault file is absent. -/
def notFoundMsg : String :=
  "Credentials file not found. This could be due to a non-existent username, a typo in the username, or the credentials file might have been moved or deleted."

/-- Message printed by `load_credentials` when decryption raises
InvalidToken. -/
def invalidPasswordMsg : String :=
  "Invalid password provided. Unable to decrypt credentials."

/-- Message printed by `force_delete` on success. -/
def deletedMsg : String :=
  "All user files in ~/.tweet have been successfully deleted."

/-- First message printed by `force_delete` when `~/.tweet` is absent. -/
def noDirMsg : String := "No ~/.tweet directory found."

/-- Second message printed by `force_delete` when `~/.tweet` is absent. -/
def noDirMsg2 : String := "This could be due to no data was loaded before testing."

/-- Message printed by `force_delete` when `shutil.rmtree` raises. -/
def unexpectedErrMsg : String := "An unexpected error occurred"

/-- Message printed by `CredentialCLI.store` before saving. -/
def savingMsg : String := "Saving your encrypted data..."

/-- Message printed by `CredentialCLI.store` after saving. -/
def savedMsg : String := "Saving completed. Data stored at: ~/.tweet"

/-- Message printed by `CredentialCLI.load` when `load_credentials`
raises an exception it did not handle itself. -/
def cliErrMsg : String := "Error:"

/-- Message printed by `CredentialCLI.reset` when either confirmation is
declined. -/
def cancelMsg : String := "Operation cancelled. Your files remain at ~/.tweet"

/-- Message printed by `CredentialCLI.reset` after a successful
`force_delete`. -/
def deletionDoneMsg : String := "Data deletion successfull."

/-- Embedding of `CredentialManager.save_credentials`: create the
`~/.tweet` directory if absent, then write the encrypted bytes to the
vault file of the username.  No exception handling here: failures
propagate to the caller. -/
def save_credentials (fs : FS) (username : String) (encrypted_data : List Nat) :
    Except PyExn FS × List String :=
  match osMakedirs fs with
  | .error e => (.error e, [])
  | .ok fs1 =>
    match fsWrite fs1 (credentials_file username) encrypted_data with
    | .error e => (.error e, [])
    | .ok fs2 => (.ok fs2, [storedMsg])

/-- Embedding of `CredentialManager.load_credentials`: read the vault
file, decrypt, deserialize.  `FileNotFoundError` and `InvalidToken` are
caught and turned into a printed message plus a `None` return; any other
exception (OSError from the read, JSONDecodeError from `json.loads`)
propagates. -/
def load_credentials (fs : FS) (username password : String) :
    Except PyExn (Option Credentials) × List String :=
  match fsRead fs (credentials_file username) with
  | .error .fileNotFound => (.ok none, [notFoundMsg])
  | .error e => (.error e, [])
  | .ok encrypted_data =>
    match decrypt_data encrypted_data password with
    | none => (.ok none, [invalidPasswordMsg])
    | some decrypted_data =>
      match deserializeCreds decrypted_data with
      | none => (.error .valueError, [])
      | some c => (.ok (some c), [])

/-- Embedding of `force_delete`: if `~/.tweet` exists, remove it and all
its contents and return "success"; otherwise report that there is
nothing to delete and return `None`.  The whole body is wrapped in
`try/except Exception`, so a failing `rmtree` is also reported, not
raised. -/
def force_delete (fs : FS) : Option String × FS × List String :=
  if fs.dirExists then
    if fs.ioFault then (none, fs, [unexpectedErrMsg])
    else (some "success", { fs with dirExists := false, files := [] },
      [deletedMsg])
  else (none, fs, [noDirMsg, noDirMsg2])

/-- Embedding of `CredentialCLI.store`: build the manager, collect the
secret record (modelled as the `creds` parameter), encrypt it (with the
library's fresh randomness modelled as `nonce`), and save.  There is no
`try/except` in this method: any exception from `save_credentials`
propagates to the process level. -/
def CredentialCLI.store (fs : FS) (usr passwd : String) (creds : Credentials)
    (nonce : Nat) : Except PyExn FS × List String :=
  let encrypted_data := encrypt_data (serializeCreds creds) passwd nonce
  match save_credentials fs usr encrypted_data with
  | (.error e, msgs) => (.error e, savingMsg :: msgs)
  | (.ok fs1, msgs) => (.ok fs1, savingMsg :: (msgs ++ [savedMsg, ""]))

/-- Embedding of `CredentialCLI.load`: delegate to `load_credentials`;
the surrounding `except Exception` catches every exception and prints
it, so this method always returns (a record or `None`). -/
def CredentialCLI.load (fs : FS) (usr passwd : String) :
    Option Credentials × List String :=
  match load_credentials fs usr passwd with
  | (.ok v, msgs) => (v, msgs)
  | (.error _, msgs) => (none, msgs ++ [cliErrMsg])

/-- Embedding of `CredentialCLI.reset`: two interactive confirmations
(modelled as parameters), then `force_delete`; an extra success message
is printed when `force_delete` returned "success". -/
def CredentialCLI.reset (fs : FS) (delete_data confirm_delete : String) :
    FS × List String :=
  if pyLower delete_data = "y" then
    if pyLower confirm_delete = "y" ∨ pyLower confirm_delete = "yes" then
      match force_delete fs with
      | (some s, fs1, msgs) =>
        if s = "success" then (fs1, msgs ++ [deletionDoneMsg]) else (fs1, msgs)
      | (none, fs1, msgs) => (fs1, msgs)
    else (fs, [cancelMsg])
  else (fs, [cancelMsg])

/-! Serialization lemmas. -/

theorem decodeStr_encodeStr (s : String) (r : List Nat) :
    decodeStr (encodeStr s ++ r) = some (s, r) := by
  have hlen : s.data.length ≤ (s.data.map Char.toNat ++ r).length := by
    simp
  have ht : (s.data.map Char.toNat ++ r).take s.data.length = s.data.map Char.toNat := by
    simp
  have hd : (s.data.map Char.toNat ++ r).drop s.data.length = r := by
    simp
  simp only [encodeStr, List.cons_append, decodeStr, if_pos hlen, ht, hd,
    List.map_map]
  simp only [Prod.mk.injEq, Option.some.injEq]
  refine ⟨String.ext ?_, trivial⟩
  simp [Function.comp_def, Char.ofNat_toNat]

theorem decodeStr_encodeStr_nil (s : String) : decodeStr (encodeStr s) = some (s, []) := by
  have h := decodeStr_encodeStr s []
  simpa using h

theorem deserializeCreds_serializeCreds (c : Credentials) :
    deserializeCreds (serializeCreds c) = some c := by
  obtain ⟨a, b, c1, d, e, f, g⟩ := c
  simp [serializeCreds, deserializeCreds, decodeStr_encodeStr,
    decodeStr_encodeStr_nil]

/-! Symbolic-cipher lemmas. -/

theorem isPrefixOf_append_self (l t : List Nat) : l.isPrefixOf (l ++ t) = true := by
  rw [List.isPrefixOf_iff_prefix]
  exact List.prefix_append l t

theorem fernetEncrypt_length (k : DerivedKey) (n : Nat) (d : List Nat) :
    (fernetEncrypt k n d).length =
      (keyBytes k ++ n :: d).length + (keyBytes k ++ n :: d).length := by
  simp [fernetEncrypt]
  omega

theorem fernetEncrypt_half (k : DerivedKey) (n : Nat) (d : List Nat) :
    (fernetEncrypt k n d).length / 2 = (keyBytes k ++ n :: d).length := by
  rw [fernetEncrypt_length]
  omega

theorem fernetEncrypt_take (k : DerivedKey) (n : Nat) (d : List Nat) :
    (fernetEncrypt k n d).take ((fernetEncrypt k n d).length / 2) =
      keyBytes k ++ n :: d := by
  rw [fernetEncrypt_half]
  exact List.take_left _ _

theorem fernetEncrypt_drop (k : DerivedKey) (n : Nat) (d : List Nat) :
    (fernetEncrypt k n d).drop ((fernetEncrypt k n d).length / 2) =
      keyBytes k ++ n :: d := by
  rw [fernetEncrypt_half]
  exact List.drop_left _ _

theorem fernet_roundtrip (k : DerivedKey) (n : Nat) (d : List Nat) :
    fernetDecrypt k (fernetEncrypt k n d) = some d := by
  have hmod : (fernetEncrypt k n d).length % 2 = 0 := by
    rw [fernetEncrypt_length]
    omega
  have hcond : (fernetEncrypt k n d).length % 2 = 0 ∧
      (fernetEncrypt k n d).drop ((fernetEncrypt k n d).length / 2) =
        (fernetEncrypt k n d).take ((fernetEncrypt k n d).length / 2) ∧
      (keyBytes k).isPrefixOf
        ((fernetEncrypt k n d).take ((fernetEncrypt k n d).length / 2)) = true := by
    refine ⟨hmod, ?_, ?_⟩
    · rw [fernetEncrypt_take, fernetEncrypt_drop]
    · rw [fernetEncrypt_take]
      exact isPrefixOf_append_self _ _
  rw [fernetDecrypt, if_pos hcond, fernetEncrypt_take, List.drop_left]

theorem generate_key_password_inj (p q : String)
    (h : p.data.map Char.toNat = q.data.map Char.toNat) : p = q := by
  apply String.ext
  refine List.map_injective_iff.mpr ?_ h
  intro a b hab
  apply Char.eq_of_val_eq
  apply UInt32.toNat.inj
  exact hab

theorem keyBytes_generate_key (p : String) :
    keyBytes (generate_key p) =
      16 :: (List.replicate 16 16 ++
        100000 :: 32 :: ((p.data.map Char.toNat).length :: p.data.map Char.toNat)) := by
  simp [keyBytes, generate_key]

theorem keyBytes_isPrefixOf_false (p q : String) (r : List Nat) (h : q ≠ p) :
    (keyBytes (generate_key q)).isPrefixOf (keyBytes (generate_key p) ++ r) = false := by
  cases hb : (keyBytes (generate_key q)).isPrefixOf (keyBytes (generate_key p) ++ r) with
  | false => rfl
  | true =>
    exfalso
    rw [List.isPrefixOf_iff_prefix] at hb
    obtain ⟨t, ht⟩ := hb
    rw [keyBytes_generate_key, keyBytes_generate_key] at ht
    simp only [List.cons_append, List.append_assoc, List.cons.injEq, true_and] at ht
    have ht2 := List.append_cancel_left ht
    simp only [List.cons.injEq, true_and] at ht2
    obtain ⟨hlen2, hrest⟩ := ht2
    obtain ⟨hm, -⟩ := List.append_inj hrest hlen2
    exact h (generate_key_password_inj q p hm)

theorem fernet_wrong_key (p q : String) (n : Nat) (d : List Nat) (h : q ≠ p) :
    fernetDecrypt (generate_key q) (fernetEncrypt (generate_key p) n d) = none := by
  have hpre : (keyBytes (generate_key q)).isPrefixOf
      ((fernetEncrypt (generate_key p) n d).take
        ((fernetEncrypt (generate_key p) n d).length / 2)) = false := by
    rw [fernetEncrypt_take]
    exact keyBytes_isPrefixOf_false p q (n :: d) h
  rw [fernetDecrypt, if_neg]
  intro hcond
  rw [hpre] at hcond
  exact Bool.false_ne_true hcond.2.2

theorem fernetEncrypt_nonce_inj (k : DerivedKey) (n1 n2 : Nat) (d : List Nat)
    (h : fernetEncrypt k n1 d = fernetEncrypt k n2 d) : n1 = n2 := by
  unfold fernetEncrypt at h
  have hlen : (keyBytes k ++ n1 :: d).length = (keyBytes k ++ n2 :: d).length := by
    simp
  obtain ⟨h1, -⟩ := List.append_inj h hlen
  have h2 := List.append_cancel_left h1
  injection h2 with hn hd

theorem keyBytes_length_pos (k : DerivedKey) : 0 < (keyBytes k).length := by
  simp [keyBytes]

theorem fernet_tamper (k k2 : DerivedKey) (n : Nat) (d : List Nat) (i y : Nat)
    (hi : i < (fernetEncrypt k n d).length)
    (hy : (fernetEncrypt k n d)[i]? ≠ some y) :
    fernetDecrypt k2 ((fernetEncrypt k n d).set i y) = none := by
  have hL : 0 < (keyBytes k ++ n :: d).length := by
    simp
  have hlen := fernetEncrypt_length k n d
  have hlen' : ((fernetEncrypt k n d).set i y).length = (fernetEncrypt k n d).length :=
    List.length_set _ _ _
  have hhalf : ((fernetEncrypt k n d).set i y).length / 2 =
      (keyBytes k ++ n :: d).length := by
    rw [hlen', hlen]
    omega
  rw [fernetDecrypt, if_neg]
  intro hcond
  obtain ⟨-, heq, -⟩ := hcond
  rw [hhalf] at heq
  have hP : fernetEncrypt k n d = (keyBytes k ++ n :: d) ++ (keyBytes k ++ n :: d) := rfl
  by_cases hc : i < (keyBytes k ++ n :: d).length
  · -- the altered byte is in the payload half: compare both halves at index i
    have e1 := congrArg (fun l => l[i]?) heq
    simp only at e1
    rw [List.getElem?_drop, List.getElem?_take_of_lt hc] at e1
    have e2 : ((fernetEncrypt k n d).set i y)[i]? = some y := by
      simp [List.getElem?_set_self, hi]
    have e3 : ((fernetEncrypt k n d).set i y)[(keyBytes k ++ n :: d).length + i]? =
        (fernetEncrypt k n d)[(keyBytes k ++ n :: d).length + i]? :=
      List.getElem?_set_ne (by omega)
    have e4 : (fernetEncrypt k n d)[(keyBytes k ++ n :: d).length + i]? =
        (keyBytes k ++ n :: d)[i]? := by
      rw [hP, List.getElem?_append, if_neg (by omega)]
      congr 1
      omega
    have e5 : (fernetEncrypt k n d)[i]? = (keyBytes k ++ n :: d)[i]? := by
      rw [hP, List.getElem?_append, if_pos hc]
    rw [e2, e3, e4] at e1
    rw [e5] at hy
    exact hy e1
  · -- the altered byte is in the tag half: compare both halves at index i - L
    have hiL : i - (keyBytes k ++ n :: d).length < (keyBytes k ++ n :: d).length := by
      rw [hlen] at hi
      omega
    have e1 := congrArg (fun l => l[i - (keyBytes k ++ n :: d).length]?) heq
    simp only at e1
    rw [List.getElem?_drop, List.getElem?_take_of_lt hiL] at e1
    have e2 : ((fernetEncrypt k n d).set i y)[(keyBytes k ++ n :: d).length +
        (i - (keyBytes k ++ n :: d).length)]? = some y := by
      have hx : (keyBytes k ++ n :: d).length + (i - (keyBytes k ++ n :: d).length) = i := by
        omega
      rw [hx]
      simp [List.getElem?_set_self, hi]
    have e3 : ((fernetEncrypt k n d).set i y)[i - (keyBytes k ++ n :: d).length]? =
        (fernetEncrypt k n d)[i - (keyBytes k ++ n :: d).length]? :=
      List.getElem?_set_ne (by omega)
    have e4 : (fernetEncrypt k n d)[i - (keyBytes k ++ n :: d).length]? =
        (keyBytes k ++ n :: d)[i - (keyBytes k ++ n :: d).length]? := by
      rw [hP, List.getElem?_append, if_pos hiL]
    have e5 : (fernetEncrypt k n d)[i]? =
        (keyBytes k ++ n :: d)[i - (keyBytes k ++ n :: d).length]? := by
      rw [hP, List.getElem?_append, if_neg (by omega)]
    rw [e2, e3, e4] at e1
    rw [e5] at hy
    exact hy e1.symm

/-- Round trip of the embedded `encrypt_data` / `decrypt_data` pair. -/
theorem decrypt_encrypt (d : List Nat) (p : String) (n : Nat) :
    decrypt_data (encrypt_data d p n) p = some d :=
  fernet_roundtrip (generate_key p) n d

/-- Decrypting under a different password fails with InvalidToken. -/
theorem decrypt_wrong_password (d : List Nat) (p q : String) (n : Nat) (h : q ≠ p) :
    decrypt_data (encrypt_data d p n) q = none :=
  fernet_wrong_key p q n d h

/-- Decrypting a ciphertext with one altered byte fails with InvalidToken,
whatever password is used. -/
theorem decrypt_tampered (d : List Nat) (p q : String) (n : Nat) (i y : Nat)
    (hi : i < (encrypt_data d p n).length)
    (hy : (encrypt_data d p n)[i]? ≠ some y) :
    decrypt_data ((encrypt_data d p n).set i y) q = none :=
  fernet_tamper (generate_key p) (generate_key q) n d i y hi hy

/-! Filesystem lemmas. -/

theorem lookupFile_putFile_self (files : List (String × List Nat)) (p : String)
    (d : List Nat) : lookupFile (putFile files p d) p = some d := by
  simp [putFile, lookupFile]

theorem lookupFile_filter_ne (files : List (String × List Nat)) (p q : String)
    (h : q ≠ p) :
    lookupFile (files.filter (fun e => e.1 != p)) q = lookupFile files q := by
  induction files with
  | nil => rfl
  | cons a rest ih =>
    obtain ⟨ap, ad⟩ := a
    rw [List.filter_cons]
    by_cases hap : ap = p
    · subst hap
      rw [if_neg (by simp)]
      rw [ih]
      rw [lookupFile, if_neg (fun hh => h hh.symm)]
    · rw [if_pos (by simp [hap])]
      rw [lookupFile, lookupFile]
      by_cases haq : ap = q
      · rw [if_pos haq, if_pos haq]
      · rw [if_neg haq, if_neg haq, ih]

theorem lookupFile_putFile_ne (files : List (String × List Nat)) (p q : String)
    (d : List Nat) (h : q ≠ p) :
    lookupFile (putFile files p d) q = lookupFile files q := by
  unfold putFile
  rw [lookupFile, if_neg (fun hh => h hh.symm), lookupFile_filter_ne files p q h]

theorem countP_filter_not (files : List (String × List Nat)) (p : String) :
    (files.filter (fun e => e.1 != p)).countP (fun e => e.1 == p) = 0 := by
  rw [List.countP_eq_zero]
  intro a ha
  rw [List.mem_filter] at ha
  obtain ⟨-, h2⟩ := ha
  intro hc
  rw [beq_iff_eq] at hc
  rw [bne_iff_ne] at h2
  exact h2 hc

theorem countP_putFile (files : List (String × List Nat)) (p : String)
    (d : List Nat) :
    (putFile files p d).countP (fun e => e.1 == p) = 1 := by
  unfold putFile
  rw [List.countP_cons_of_pos _ _ (by simp), countP_filter_not]

/-! Characterization of the CLI operations. -/

theorem cli_store_of_ok_env (fs : FS) (u p : String) (c : Credentials) (n : Nat)
    (hio : fs.ioFault = false) :
    CredentialCLI.store fs u p c n =
      (.ok { dirExists := true,
             files := putFile fs.files (credentials_file u)
               (encrypt_data (serializeCreds c) p n),
             ioFault := false },
       [savingMsg, storedMsg, savedMsg, ""]) := by
  obtain ⟨de, fl, io⟩ := fs
  cases io with
  | false => simp [CredentialCLI.store, save_credentials, osMakedirs, fsWrite]
  | true => exact absurd hio (by simp)

theorem cli_store_of_fault_env (fs : FS) (u p : String) (c : Credentials) (n : Nat)
    (hio : fs.ioFault = true) :
    CredentialCLI.store fs u p c n = (.error .osError, [savingMsg]) := by
  obtain ⟨de, fl, io⟩ := fs
  cases io with
  | false => exact absurd hio (by simp)
  | true => simp [CredentialCLI.store, save_credentials, osMakedirs]

theorem cli_store_ok_inv (fs fs1 : FS) (u p : String) (c : Credentials) (n : Nat)
    (h : (CredentialCLI.store fs u p c n).1 = .ok fs1) :
    fs.ioFault = false ∧
      fs1 = { dirExists := true,
              files := putFile fs.files (credentials_file u)
                (encrypt_data (serializeCreds c) p n),
              ioFault := false } := by
  cases hio : fs.ioFault with
  | true =>
    rw [cli_store_of_fault_env fs u p c n hio] at h
    exact absurd h (by simp)
  | false =>
    rw [cli_store_of_ok_env fs u p c n hio] at h
    simp only [Except.ok.injEq] at h
    exact ⟨rfl, h.symm⟩

theorem cli_load_notFound (fs : FS) (u p : String) (hio : fs.ioFault = false)
    (hf : lookupFile fs.files (credentials_file u) = none) :
    CredentialCLI.load fs u p = (none, [notFoundMsg]) := by
  simp [CredentialCLI.load, load_credentials, fsRead, hio, hf]

theorem cli_load_invalid (fs : FS) (u p : String) (token : List Nat)
    (hio : fs.ioFault = false)
    (hf : lookupFile fs.files (credentials_file u) = some token)
    (hd : decrypt_data token p = none) :
    CredentialCLI.load fs u p = (none, [invalidPasswordMsg]) := by
  simp [CredentialCLI.load, load_credentials, fsRead, hio, hf, hd]

theorem cli_load_success (fs : FS) (u p : String) (token pt : List Nat)
    (c : Credentials) (hio : fs.ioFault = false)
    (hf : lookupFile fs.files (credentials_file u) = some token)
    (hd : decrypt_data token p = some pt)
    (hc : deserializeCreds pt = some c) :
    CredentialCLI.load fs u p = (some c, []) := by
  simp [CredentialCLI.load, load_credentials, fsRead, hio, hf, hd, hc]

theorem load_credentials_cases (fs : FS) (u p : String) :
    (∃ c, load_credentials fs u p = (.ok (some c), [])) ∨
    load_credentials fs u p = (.ok none, [notFoundMsg]) ∨
    load_credentials fs u p = (.ok none, [invalidPasswordMsg]) ∨
    (∃ e, load_credentials fs u p = (.error e, [])) := by
  unfold load_credentials
  cases hr : fsRead fs (credentials_file u) with
  | error e => cases e <;> simp
  | ok data =>
    cases hd : decrypt_data data p with
    | none => simp [hd]
    | some pt =>
      cases hc : deserializeCreds pt with
      | none => simp [hd, hc]
      | some c => simp [hd, hc]

/-! Concrete fixtures used by the witness theorems. -/

/-- Sample secret record. -/
def sampleCreds : Credentials :=
  ⟨"id0", "secret0", "apikey0", "apikeysecret0", "bearer0", "token0", "tokensecret0"⟩

/-- Second sample secret record, different from `sampleCreds`. -/
def sampleCreds2 : Credentials :=
  ⟨"id1", "s1", "k1", "ks1", "b1", "t1", "ts1"⟩

/-- Fresh filesystem: no `~/.tweet` directory, no files, healthy environment. -/
def emptyFS : FS := ⟨false, [], false⟩

/-- Filesystem after storing `sampleCreds` for alice under password "pw"
with cipher randomness 7. -/
def fsA : FS :=
  ⟨true, putFile emptyFS.files (credentials_file "alice")
    (encrypt_data (serializeCreds sampleCreds) "pw" 7), false⟩

/-- Filesystem after additionally storing `sampleCreds2` for bob under
password "pw2" with cipher randomness 8. -/
def fsB : FS :=
  ⟨true, putFile fsA.files (credentials_file "bob")
    (encrypt_data (serializeCreds sampleCreds2) "pw2" 8), false⟩

/-! Claim theorems. -/

/-- C1: for every secret record R, non-empty password P and username U,
store(U, P, R) (serialize, encrypt under the key derived from P, write
the vault file) followed by load(U, P) (read the vault file, decrypt,
deserialize) returns a record equal to R. -/
theorem store_load_roundtrip (fs fs1 : FS) (u p : String) (c : Credentials)
    (n : Nat) (_hp : p ≠ "")
    (h : (CredentialCLI.store fs u p c n).1 = .ok fs1) :
    (CredentialCLI.load fs1 u p).1 = some c := by
  obtain ⟨hio, hfs1⟩ := cli_store_ok_inv fs fs1 u p c n h
  subst hfs1
  rw [cli_load_success _ u p (encrypt_data (serializeCreds c) p n)
    (serializeCreds c) c rfl (lookupFile_putFile_self _ _ _)
    (decrypt_encrypt _ p n) (deserializeCreds_serializeCreds c)]

/-- Witness for C1 at a concrete record, username, password and nonce. -/
theorem store_load_roundtrip_witness :
    (("pw" : String) ≠ "") ∧
    ((CredentialCLI.store emptyFS "alice" "pw" sampleCreds 7).1 = .ok fsA) ∧
    (CredentialCLI.load fsA "alice" "pw").1 = some sampleCreds :=
  ⟨by decide, by rfl,
    store_load_roundtrip emptyFS fsA "alice" "pw" sampleCreds 7 (by decide) (by rfl)⟩

/-- C2: after store(U, P, R), loading with any other password P2 yields the
AuthenticationFailed outcome — the printed message is the invalid-password
report and no record is returned. -/
theorem store_load_wrong_password (fs fs1 : FS) (u p p2 : String)
    (c : Credentials) (n : Nat) (hne : p2 ≠ p)
    (h : (CredentialCLI.store fs u p c n).1 = .ok fs1) :
    CredentialCLI.load fs1 u p2 = (none, [invalidPasswordMsg]) := by
  obtain ⟨hio, hfs1⟩ := cli_store_ok_inv fs fs1 u p c n h
  subst hfs1
  exact cli_load_invalid _ u p2 _ rfl (lookupFile_putFile_self _ _ _)
    (decrypt_wrong_password _ p p2 n hne)

/-- Witness for C2 at a concrete record and a concrete wrong password. -/
theorem store_load_wrong_password_witness :
    (("qw" : String) ≠ "pw") ∧
    CredentialCLI.load fsA "alice" "qw" = (none, [invalidPasswordMsg]) :=
  ⟨by decide,
    store_load_wrong_password emptyFS fsA "alice" "pw" "qw" sampleCreds 7
      (by decide) (by rfl)⟩

/-- C3: key derivation is a pure deterministic function of the password:
PBKDF2 with SHA-256, exactly 100000 iterations, the fixed 16-byte salt
(the byte 0x10 repeated), a 32-byte output, and identical passwords give
identical keys. -/
theorem generate_key_spec (p : String) :
    (generate_key p).salt = List.replicate 16 16 ∧
    (generate_key p).salt.length = 16 ∧
    (generate_key p).iterations = 100000 ∧
    (generate_key p).length = 32 ∧
    (∀ q : String, p = q → generate_key p = generate_key q) := by
  refine ⟨rfl, by simp [generate_key], rfl, rfl, ?_⟩
  intro q h
  rw [h]

/-- Witness for C3 at a concrete password. -/
theorem generate_key_spec_witness :
    (("pw" : String) = "pw") ∧ generate_key "pw" = generate_key "pw" :=
  ⟨rfl, (generate_key_spec "pw").2.2.2.2 "pw" rfl⟩

/-- C4: two encryptions of the same record under the same password with
distinct fresh cipher randomness produce different ciphertexts, yet both
decrypt (and deserialize) back to the same record. -/
theorem encrypt_nondeterministic (c : Credentials) (p : String) (n1 n2 : Nat)
    (h : n1 ≠ n2) :
    encrypt_data (serializeCreds c) p n1 ≠ encrypt_data (serializeCreds c) p n2 ∧
    (decrypt_data (encrypt_data (serializeCreds c) p n1) p).bind deserializeCreds =
      some c ∧
    (decrypt_data (encrypt_data (serializeCreds c) p n2) p).bind deserializeCreds =
      some c := by
  refine ⟨?_, ?_, ?_⟩
  · intro he
    exact h (fernetEncrypt_nonce_inj (generate_key p) n1 n2 (serializeCreds c) he)
  · rw [decrypt_encrypt]
    simp [deserializeCreds_serializeCreds]
  · rw [decrypt_encrypt]
    simp [deserializeCreds_serializeCreds]

/-- Witness for C4 at a concrete record, password and two nonces. -/
theorem encrypt_nondeterministic_witness :
    ((7 : Nat) ≠ 8) ∧
    (encrypt_data (serializeCreds sampleCreds) "pw" 7 ≠
      encrypt_data (serializeCreds sampleCreds) "pw" 8 ∧
    (decrypt_data (encrypt_data (serializeCreds sampleCreds) "pw" 7) "pw").bind
      deserializeCreds = some sampleCreds ∧
    (decrypt_data (encrypt_data (serializeCreds sampleCreds) "pw" 8) "pw").bind
      deserializeCreds = some sampleCreds) :=
  ⟨by decide, encrypt_nondeterministic sampleCreds "pw" 7 8 (by decide)⟩

/-- C5 counterexample: with a faulty environment (directory creation
fails), `CredentialCLI.store` propagates the OSError as an unhandled
exception instead of converting it to a reported outcome — the store
boundary does not catch every failure. -/
theorem store_iofault_uncaught :
    (CredentialCLI.store ⟨false, [], true⟩ "alice" "pw" sampleCreds 0).1 =
      .error .osError := by
  rfl

/-- C5 amended: failures of load and reset are caught at the boundary
and reported — `CredentialCLI.load` never lets an exception escape and
prints a message on every failed load, and `force_delete` reports its
failures — but store performs no exception handling, so its I/O
failures propagate (see the counterexample). -/
theorem load_reset_failures_reported :
    (∀ (fs : FS) (u p : String), (CredentialCLI.load fs u p).1 = none →
      (CredentialCLI.load fs u p).2 ≠ []) ∧
    (∀ fs : FS, (force_delete fs).1 = none → (force_delete fs).2.2 ≠ []) := by
  constructor
  · intro fs u p h
    rcases load_credentials_cases fs u p with ⟨c, hc⟩ | hc | hc | ⟨e, hc⟩
    · simp [CredentialCLI.load, hc] at h
    · simp [CredentialCLI.load, hc]
    · simp [CredentialCLI.load, hc]
    · simp [CredentialCLI.load, hc]
  · intro fs h
    unfold force_delete at h ⊢
    by_cases hd : fs.dirExists
    · rw [if_pos hd] at h ⊢
      by_cases hio : fs.ioFault
      · rw [if_pos hio]
        simp [unexpectedErrMsg]
      · rw [if_neg hio] at h
        exact absurd h (by simp)
    · rw [if_neg hd]
      simp [noDirMsg, noDirMsg2]

/-- Witness for the C5 amended theorem: a concrete failed load is
reported with a message, and a concrete failed reset likewise. -/
theorem load_reset_failures_reported_witness :
    ((CredentialCLI.load emptyFS "ghost" "pw").1 = none ∧
      (CredentialCLI.load emptyFS "ghost" "pw").2 ≠ []) ∧
    ((force_delete emptyFS).1 = none ∧ (force_delete emptyFS).2.2 ≠ []) :=
  ⟨⟨by rfl, load_reset_failures_reported.1 emptyFS "ghost" "pw" (by rfl)⟩,
    ⟨by rfl, load_reset_failures_reported.2 emptyFS (by rfl)⟩⟩

/-- C6: a confirmed reset after storing records for two usernames removes
the whole vault directory — every user's vault file is gone, a subsequent
load for either username yields NotFound — and when the directory does
not exist, `force_delete` reports the nothing-to-delete signal. -/
theorem reset_scope (fs fs1 fs2 : FS) (u1 u2 p1 p2 q1 q2 : String)
    (c1 c2 : Credentials) (n1 n2 : Nat) (a1 a2 : String)
    (_h1 : (CredentialCLI.store fs u1 p1 c1 n1).1 = .ok fs1)
    (h2 : (CredentialCLI.store fs1 u2 p2 c2 n2).1 = .ok fs2)
    (ha1 : pyLower a1 = "y")
    (ha2 : pyLower a2 = "y" ∨ pyLower a2 = "yes") :
    (CredentialCLI.reset fs2 a1 a2).1.files = [] ∧
    (CredentialCLI.reset fs2 a1 a2).1.dirExists = false ∧
    CredentialCLI.load (CredentialCLI.reset fs2 a1 a2).1 u1 q1 =
      (none, [notFoundMsg]) ∧
    CredentialCLI.load (CredentialCLI.reset fs2 a1 a2).1 u2 q2 =
      (none, [notFoundMsg]) ∧
    (∀ fs3 : FS, fs3.dirExists = false →
      force_delete fs3 = (none, fs3, [noDirMsg, noDirMsg2])) := by
  obtain ⟨hio2, hfs2⟩ := cli_store_ok_inv fs1 fs2 u2 p2 c2 n2 h2
  subst hfs2
  have hreset : CredentialCLI.reset
      ⟨true, putFile fs1.files (credentials_file u2)
        (encrypt_data (serializeCreds c2) p2 n2), false⟩ a1 a2 =
      (⟨false, [], false⟩, [deletedMsg, deletionDoneMsg]) := by
    unfold CredentialCLI.reset
    rw [ha1, if_pos rfl, if_pos ha2]
    simp [force_delete]
  rw [hreset]
  refine ⟨rfl, rfl, cli_load_notFound _ _ _ rfl rfl,
    cli_load_notFound _ _ _ rfl rfl, ?_⟩
  intro fs3 h3
  unfold force_delete
  rw [if_neg (by simp [h3])]

/-- Witness for C6: store for alice and bob, reset with confirmations
"Y" and "yes", then both loads report the missing vault file. -/
theorem reset_scope_witness :
    (pyLower "Y" = "y") ∧
    (CredentialCLI.reset fsB "Y" "yes").1.files = [] ∧
    CredentialCLI.load (CredentialCLI.reset fsB "Y" "yes").1 "alice" "pw" =
      (none, [notFoundMsg]) ∧
    CredentialCLI.load (CredentialCLI.reset fsB "Y" "yes").1 "bob" "pw2" =
      (none, [notFoundMsg]) := by
  have h := reset_scope emptyFS fsA fsB "alice" "bob" "pw" "pw2" "pw" "pw2"
    sampleCreds sampleCreds2 7 8 "Y" "yes" (by rfl) (by rfl) (by decide)
    (Or.inr (by decide))
  exact ⟨by decide, h.1, h.2.2.1, h.2.2.2.1⟩

/-- C7: loading a username with no vault file (never stored or removed)
yields the NotFound outcome: no record is returned, the missing-file
message is printed, and no exception escapes. -/
theorem load_missing_user (fs : FS) (u p : String)
    (hio : fs.ioFault = false)
    (hf : lookupFile fs.files (credentials_file u) = none) :
    CredentialCLI.load fs u p = (none, [notFoundMsg]) :=
  cli_load_notFound fs u p hio hf

/-- Witness for C7 at a concrete never-stored username. -/
theorem load_missing_user_witness :
    (emptyFS.ioFault = false) ∧
    (lookupFile emptyFS.files (credentials_file "nobody") = none) ∧
    CredentialCLI.load emptyFS "nobody" "pw" = (none, [notFoundMsg]) :=
  ⟨rfl, rfl, load_missing_user emptyFS "nobody" "pw" rfl rfl⟩

/-- C8: if any single byte of a stored ciphertext is altered, a
subsequent load with the correct password yields AuthenticationFailed —
the same invalid-password outcome as a wrong password — rather than a
corrupted record. -/
theorem load_tampered_file (fs fs1 : FS) (u p : String) (c : Credentials)
    (n : Nat) (i y : Nat)
    (h : (CredentialCLI.store fs u p c n).1 = .ok fs1)
    (hi : i < (encrypt_data (serializeCreds c) p n).length)
    (hy : (encrypt_data (serializeCreds c) p n)[i]? ≠ some y) :
    CredentialCLI.load
      (overwriteFile fs1 (credentials_file u)
        ((encrypt_data (serializeCreds c) p n).set i y)) u p =
      (none, [invalidPasswordMsg]) := by
  obtain ⟨hio, hfs1⟩ := cli_store_ok_inv fs fs1 u p c n h
  subst hfs1
  exact cli_load_invalid _ u p _ rfl (lookupFile_putFile_self _ _ _)
    (decrypt_tampered _ p p n i y hi hy)

set_option maxRecDepth 10000 in
/-- Witness for C8: alter byte 0 of alice's stored ciphertext to 99 and
load with the correct password. -/
theorem load_tampered_file_witness :
    (0 < (encrypt_data (serializeCreds sampleCreds) "pw" 7).length) ∧
    ((encrypt_data (serializeCreds sampleCreds) "pw" 7)[0]? ≠ some 99) ∧
    CredentialCLI.load
      (overwriteFile fsA (credentials_file "alice")
        ((encrypt_data (serializeCreds sampleCreds) "pw" 7).set 0 99))
      "alice" "pw" = (none, [invalidPasswordMsg]) :=
  ⟨by decide, by decide,
    load_tampered_file emptyFS fsA "alice" "pw" sampleCreds 7 0 99 (by rfl)
      (by decide) (by decide)⟩

/-- C9: storing twice for the same username and password raises no
error, leaves exactly one vault file for that username, and a subsequent
load returns the second record, not the first. -/
theorem store_overwrite (fs fs1 : FS) (u p : String) (c1 c2 : Credentials)
    (n1 n2 : Nat) (hc : c1 ≠ c2)
    (h1 : (CredentialCLI.store fs u p c1 n1).1 = .ok fs1) :
    ∃ fs2 : FS, (CredentialCLI.store fs1 u p c2 n2).1 = .ok fs2 ∧
      fs2.files.countP (fun e => e.1 == credentials_file u) = 1 ∧
      (CredentialCLI.load fs2 u p).1 = some c2 ∧
      (CredentialCLI.load fs2 u p).1 ≠ some c1 := by
  obtain ⟨hio, hfs1⟩ := cli_store_ok_inv fs fs1 u p c1 n1 h1
  subst hfs1
  refine ⟨{ dirExists := true,
            files := putFile
              (putFile fs.files (credentials_file u)
                (encrypt_data (serializeCreds c1) p n1))
              (credentials_file u) (encrypt_data (serializeCreds c2) p n2),
            ioFault := false }, ?_, ?_, ?_, ?_⟩
  · rw [cli_store_of_ok_env _ u p c2 n2 rfl]
  · exact countP_putFile _ _ _
  · rw [cli_load_success _ u p (encrypt_data (serializeCreds c2) p n2)
      (serializeCreds c2) c2 rfl (lookupFile_putFile_self _ _ _)
      (decrypt_encrypt _ p n2) (deserializeCreds_serializeCreds c2)]
  · rw [cli_load_success _ u p (encrypt_data (serializeCreds c2) p n2)
      (serializeCreds c2) c2 rfl (lookupFile_putFile_self _ _ _)
      (decrypt_encrypt _ p n2) (deserializeCreds_serializeCreds c2)]
    intro hcontra
    exact hc (Option.some.inj hcontra).symm

/-- Witness for C9: store two distinct concrete records for alice, check
the overwrite behaviour. -/
theorem store_overwrite_witness :
    (sampleCreds ≠ sampleCreds2) ∧
    (∃ fs2 : FS, (CredentialCLI.store fsA "alice" "pw" sampleCreds2 9).1 = .ok fs2 ∧
      fs2.files.countP (fun e => e.1 == credentials_file "alice") = 1 ∧
      (CredentialCLI.load fs2 "alice" "pw").1 = some sampleCreds2 ∧
      (CredentialCLI.load fs2 "alice" "pw").1 ≠ some sampleCreds) :=
  ⟨by decide,
    store_overwrite emptyFS fsA "alice" "pw" sampleCreds sampleCreds2 7 9
      (by decide) (by rfl)⟩

/-- C10: both load failures — absent vault file and rejected ciphertext —
make `CredentialCLI.load` return the same value `none` (each after
printing its message), so a programmatic caller cannot tell NotFound from
AuthenticationFailed by the returned value alone. -/
theorem load_failures_return_none :
    (∀ (fs : FS) (u p : String), fs.ioFault = false →
      lookupFile fs.files (credentials_file u) = none →
      (CredentialCLI.load fs u p).1 = none) ∧
    (∀ (fs fs1 : FS) (u p p2 : String) (c : Credentials) (n : Nat),
      (CredentialCLI.store fs u p c n).1 = .ok fs1 → p2 ≠ p →
      (CredentialCLI.load fs1 u p2).1 = none) := by
  constructor
  · intro fs u p hio hf
    rw [cli_load_notFound fs u p hio hf]
  · intro fs fs1 u p p2 c n h hne
    obtain ⟨hio, hfs1⟩ := cli_store_ok_inv fs fs1 u p c n h
    subst hfs1
    rw [cli_load_invalid _ u p2 _ rfl (lookupFile_putFile_self _ _ _)
      (decrypt_wrong_password _ p p2 n hne)]

/-- Witness for C10: a concrete missing-file load and a concrete
wrong-password load both return `none`. -/
theorem load_failures_return_none_witness :
    ((CredentialCLI.load emptyFS "nouser" "pw").1 = none) ∧
    ((CredentialCLI.load fsA "alice" "bad").1 = none) :=
  ⟨load_failures_return_none.1 emptyFS "nouser" "pw" rfl rfl,
    load_failures_return_none.2 emptyFS fsA "alice" "pw" "bad" sampleCreds 7
      (by rfl) (by decide)⟩

end Xpost
